import Mathlib

/-!
Verification of the codex-usage dashboard core against its specification.

Shallow embedding conventions:
* Rust `i64` values are modelled as `ℤ`; `usize` as `ℕ`.
* Rust `f64` arithmetic in `pace.rs` is modelled as exact rational
  arithmetic over `ℚ` (every operation the projector performs — casts from
  small integers, additions, subtractions, multiplications, divisions,
  `clamp`, `max`, comparisons — is modelled exactly).
* `chrono::DateTime<Utc>` instants are modelled by their Unix timestamp in
  whole seconds (`ℤ`).  `DateTime::from_timestamp(secs, 0)` succeeds
  exactly for timestamps in chrono's representable range
  `[-8334632851200, 8210298412799]` (from `-262144-01-01T00:00:00Z` up to
  `+262143-12-31T23:59:59Z`), and that range check is modelled explicitly.
* Rust strings are modelled as `List Char`; the `strip_ansi_escapes` +
  `unicode_width` based `visible_len` is modelled by an explicit ANSI
  escape-sequence state machine followed by a character-width table.
-/

namespace CodexUsage

/-! ## Data model (`api.rs`)

`WindowSnapshot` keeps the three fields the core reads; the ignored
passthrough fields (`reset_after_seconds`, the `_extra` map) carry no
behavior. -/

/-- One rate-limit window's state at fetch time (`api.rs`, `WindowSnapshot`). -/
structure WindowSnapshot where
  used_percent : ℤ
  reset_at : ℤ
  limit_window_seconds : ℤ
deriving DecidableEq, Repr

/-- The optional pair of windows (`api.rs`, `RateLimitDetails`). -/
structure RateLimitDetails where
  primary_window : Option WindowSnapshot
  secondary_window : Option WindowSnapshot
deriving DecidableEq, Repr

/-! ## Integer primitives (Rust semantics) -/

/-- Rust `i64` truncating division (`/` on `i64` rounds toward zero). -/
def i64Div (a b : ℤ) : ℤ := Int.tdiv a b

/-- Rust `i64` remainder (`%` on `i64`, sign of the dividend). -/
def i64Rem (a b : ℤ) : ℤ := Int.tmod a b

/-- Smallest `i64` value. -/
def i64MinVal : ℤ := -(2 ^ 63)

/-- Largest `i64` value. -/
def i64MaxVal : ℤ := 2 ^ 63 - 1

/-- Rust `i64::saturating_sub`. -/
def i64SaturatingSub (a b : ℤ) : ℤ := min (max (a - b) i64MinVal) i64MaxVal

/-- Rust `i64::clamp` (the call sites use constant bounds `lo ≤ hi`). -/
def i64Clamp (x lo hi : ℤ) : ℤ := min (max x lo) hi

/-- Rust `f64::clamp` for `lo ≤ hi`, on the exact rational model. -/
def fClamp (x lo hi : ℚ) : ℚ := min (max x lo) hi

/-- Truncation of a rational toward zero, as in Rust's `as i64` cast
(the cast additionally saturates; saturation is applied at the call site
that needs it). -/
def ratTrunc (q : ℚ) : ℤ := if 0 ≤ q then ⌊q⌋ else -⌊-q⌋

/-! ## chrono timestamp range -/

/-- Unix timestamp of `chrono`'s minimum datetime `-262144-01-01T00:00:00Z`. -/
def chronoMinTimestamp : ℤ := -8334632851200

/-- Unix timestamp of `chrono`'s maximum datetime `+262143-12-31T23:59:59Z`. -/
def chronoMaxTimestamp : ℤ := 8210298412799

/-- Success condition of `DateTime::from_timestamp(t, 0)`. -/
def timestampInRange (t : ℤ) : Prop :=
  chronoMinTimestamp ≤ t ∧ t ≤ chronoMaxTimestamp

instance (t : ℤ) : Decidable (timestampInRange t) := by
  unfold timestampInRange; infer_instance

/-! ## Pace projector (`pace.rs`) -/

/-- The seven pace stages (`pace.rs`, `Stage`). -/
inductive Stage where
  | OnTrack
  | SlightlyAhead
  | Ahead
  | FarAhead
  | SlightlyBehind
  | Behind
  | FarBehind
deriving DecidableEq, Repr

/-- The pace verdict (`pace.rs`, `UsagePace`). -/
structure UsagePace where
  stage : Stage
  delta_percent : ℚ
  expected_used_percent : ℚ
  actual_used_percent : ℚ
  eta_seconds : Option ℚ
  will_last_to_reset : Bool
deriving DecidableEq, Repr

/-- Window-duration resolution (`pace.rs` lines 29-30): `limit_window_seconds / 60`
if that truncated quotient is positive, else the caller's default. -/
def resolvedWindowMinutes (window : WindowSnapshot) (default_window_minutes : ℤ) : ℤ :=
  let window_minutes := i64Div window.limit_window_seconds 60
  if window_minutes > 0 then window_minutes else default_window_minutes

/-- Nominal window duration in seconds (`pace.rs` line 32). -/
def durationSec (window : WindowSnapshot) (default_window_minutes : ℤ) : ℚ :=
  (resolvedWindowMinutes window default_window_minutes : ℚ) * 60

/-- Seconds until the reported reset, floored at zero (`pace.rs` line 33). -/
def timeUntilReset (window : WindowSnapshot) (now : ℤ) : ℚ :=
  ((max (window.reset_at - now) 0 : ℤ) : ℚ)

/-- Elapsed window time (`pace.rs` line 39). -/
def elapsedSec (window : WindowSnapshot) (now default_window_minutes : ℤ) : ℚ :=
  fClamp (durationSec window default_window_minutes - timeUntilReset window now) 0
    (durationSec window default_window_minutes)

/-- Expected usage percentage under uniform consumption (`pace.rs` line 40). -/
def expectedUsed (window : WindowSnapshot) (now default_window_minutes : ℤ) : ℚ :=
  fClamp
    (elapsedSec window now default_window_minutes /
      durationSec window default_window_minutes * 100) 0 100

/-- Actual usage percentage, clamped (`pace.rs` line 41). -/
def actualUsed (window : WindowSnapshot) : ℚ :=
  fClamp (window.used_percent : ℚ) 0 100

/-- Stage classification (`pace.rs`, `UsagePace::stage_from_delta`). -/
def stage_from_delta (delta : ℚ) : Stage :=
  let abs_delta := |delta|
  if abs_delta ≤ 2 then
    Stage.OnTrack
  else if abs_delta ≤ 6 then
    if delta ≥ 0 then Stage.SlightlyAhead else Stage.SlightlyBehind
  else if abs_delta ≤ 12 then
    if delta ≥ 0 then Stage.Ahead else Stage.Behind
  else if delta ≥ 0 then Stage.FarAhead
  else Stage.FarBehind

/-- ETA / survival computation (`pace.rs` lines 50-67). -/
def etaAndSurvival (elapsed actual time_until_reset : ℚ) : Option ℚ × Bool :=
  if elapsed > 0 ∧ actual > 0 then
    let rate := actual / elapsed
    if rate > 0 then
      let remaining := max (100 - actual) 0
      let candidate := remaining / rate
      if candidate ≥ time_until_reset then (none, true) else (some candidate, false)
    else (none, true)
  else if elapsed > 0 ∧ actual = 0 then (none, true)
  else (none, false)

/-- The pace projector (`pace.rs`, `UsagePace::from_window`). -/
def from_window (window : WindowSnapshot) (now default_window_minutes : ℤ) :
    Option UsagePace :=
  if ¬ timestampInRange window.reset_at then none
  else
    let duration_sec := durationSec window default_window_minutes
    let time_until_reset := timeUntilReset window now
    if time_until_reset > duration_sec ∨ time_until_reset = 0 then none
    else
      let elapsed := elapsedSec window now default_window_minutes
      let expected := expectedUsed window now default_window_minutes
      let actual := actualUsed window
      if elapsed = 0 ∧ actual > 0 then none
      else
        let delta := actual - expected
        let es := etaAndSurvival elapsed actual time_until_reset
        some
          { stage := stage_from_delta delta
            delta_percent := delta
            expected_used_percent := expected
            actual_used_percent := actual
            eta_seconds := es.1
            will_last_to_reset := es.2 }

/-! ## Example inputs used by witnesses and counterexamples -/

/-- A mid-window snapshot: 50% used, 20-minute window, reset in 10 minutes. -/
def exWindow : WindowSnapshot := ⟨50, 600, 1200⟩

/-- An ahead-of-pace snapshot: 80% used, 20-minute window, reset in 10 minutes. -/
def exAheadWindow : WindowSnapshot := ⟨80, 600, 1200⟩

/-- A snapshot whose `reset_at` lies beyond chrono's maximum representable
timestamp, so `DateTime::from_timestamp` fails. -/
def cexWindow : WindowSnapshot := ⟨50, 8210298412800, 0⟩

/-! ## ANSI-aware width measurement (`display.rs`, `visible_len`)

`visible_len` strips ANSI escape sequences with the `strip_ansi_escapes`
crate (a `vte` parser) and then measures display columns with the
`unicode-width` crate.  The stripper is modelled as a three-state machine
(ground / after-ESC / inside-CSI): these are exactly the states the SGR
sequences emitted by the `colored` crate exercise, and `ESC` re-enters the
escape state from anywhere, as in `vte`'s `anywhere` transitions. -/

/-- The ANSI escape character `0x1B`. -/
def escChar : Char := Char.ofNat 27

/-- Parser states of the ANSI stripper. -/
inductive AnsiState where
  | ground
  | escape
  | csi
deriving DecidableEq, Repr

/-- One transition of the ANSI stripper: `ESC` enters the escape state from
anywhere, `[` after `ESC` opens a CSI sequence, and a final byte in
`0x40`-`0x7E` closes it. -/
def ansiStep (st : AnsiState) (c : Char) : AnsiState :=
  if c = escChar then AnsiState.escape
  else
    match st with
    | AnsiState.ground => AnsiState.ground
    | AnsiState.escape => if c = '[' then AnsiState.csi else AnsiState.ground
    | AnsiState.csi =>
      if 0x40 ≤ c.toNat ∧ c.toNat ≤ 0x7E then AnsiState.ground else AnsiState.csi

/-- The stripper emits a character only in the ground state. -/
def stripFrom : AnsiState → List Char → List Char
  | _, [] => []
  | st, c :: rest =>
    if st = AnsiState.ground ∧ c ≠ escChar then c :: stripFrom (ansiStep st c) rest
    else stripFrom (ansiStep st c) rest

/-- Final parser state after consuming a string. -/
def runAnsi (st : AnsiState) (s : List Char) : AnsiState := s.foldl ansiStep st

/-- Display-column width of one character, modelling the `unicode-width`
crate: control characters count zero, the East-Asian wide/fullwidth blocks
count two, combining marks and zero-width characters count zero, everything
else (including every glyph this dashboard emits) counts one. -/
def charWidth (c : Char) : ℕ :=
  let n := c.toNat
  if n < 0x20 then 0
  else if n < 0x7F then 1
  else if n = 0x7F then 0
  else if (0x300 ≤ n ∧ n ≤ 0x36F) ∨ (0x200B ≤ n ∧ n ≤ 0x200F) then 0
  else if (0x1100 ≤ n ∧ n ≤ 0x115F) ∨ (0x2E80 ≤ n ∧ n ≤ 0x303E) ∨
      (0x3041 ≤ n ∧ n ≤ 0x33FF) ∨ (0x3400 ≤ n ∧ n ≤ 0x4DBF) ∨
      (0x4E00 ≤ n ∧ n ≤ 0x9FFF) ∨ (0xA000 ≤ n ∧ n ≤ 0xA4CF) ∨
      (0xAC00 ≤ n ∧ n ≤ 0xD7A3) ∨ (0xF900 ≤ n ∧ n ≤ 0xFAFF) ∨
      (0xFE30 ≤ n ∧ n ≤ 0xFE4F) ∨ (0xFF00 ≤ n ∧ n ≤ 0xFF60) ∨
      (0xFFE0 ≤ n ∧ n ≤ 0xFFE6) ∨ (0x20000 ≤ n ∧ n ≤ 0x3FFFD) then 2
  else 1

/-- Total display width of a plain (already stripped) character list. -/
def listWidth (s : List Char) : ℕ := (s.map charWidth).sum

/-- `display.rs`, `visible_len`: strip ANSI escapes, then measure display
columns. -/
def visible_len (s : List Char) : ℕ := listWidth (stripFrom AnsiState.ground s)

/-! ## Styling (the `colored` crate as used by `display.rs`) -/

/-- Color and style names used by `display.rs`: the match arms of
`apply_color` plus the catch-all `normal`, which emits no escapes. -/
inductive ColorName where
  | red
  | green
  | yellow
  | cyan
  | blue
  | magenta
  | white
  | normal
deriving DecidableEq, Repr

/-- CSI parameter bytes (`0x30`-`0x3F`: digits, `;`, and friends) — the
characters allowed between `ESC [` and the final byte of an SGR sequence. -/
def validSgrParams (ps : List Char) : Prop :=
  ∀ c ∈ ps, 0x30 ≤ c.toNat ∧ c.toNat ≤ 0x3F

instance (ps : List Char) : Decidable (validSgrParams ps) := by
  unfold validSgrParams; infer_instance

/-- Printable ASCII (`0x20`-`0x7E`): one display column, never an escape. -/
def printableAscii (c : Char) : Prop := 0x20 ≤ c.toNat ∧ c.toNat < 0x7F

instance (c : Char) : Decidable (printableAscii c) := by
  unfold printableAscii; infer_instance

/-- A string of printable ASCII characters. -/
def printableStr (s : List Char) : Prop := ∀ c ∈ s, printableAscii c

instance (s : List Char) : Decidable (printableStr s) := by
  unfold printableStr; infer_instance

/-- SGR escape sequence `ESC [ <params> m`. -/
def sgrSeq (params : List Char) : List Char := escChar :: '[' :: (params ++ ['m'])

/-- A string wrapped in an SGR style prefix and the `ESC[0m` reset suffix,
as the `colored` crate renders a styled string. -/
def styledWrap (params s : List Char) : List Char :=
  sgrSeq params ++ s ++ sgrSeq ['0']

/-- ANSI color code of each `apply_color` arm (`colored`: 31 red, 32 green,
33 yellow, 34 blue, 35 magenta, 36 cyan, 37 white). -/
def colorParams : ColorName → List Char
  | ColorName.red => ['3', '1']
  | ColorName.green => ['3', '2']
  | ColorName.yellow => ['3', '3']
  | ColorName.cyan => ['3', '6']
  | ColorName.blue => ['3', '4']
  | ColorName.magenta => ['3', '5']
  | ColorName.white => ['3', '7']
  | ColorName.normal => []

/-- `display.rs`, `apply_color`; the `normal` arm renders without escapes. -/
def apply_color (text : List Char) (color : ColorName) : List Char :=
  match color with
  | ColorName.normal => text
  | c => styledWrap (colorParams c) text

/-- `colored`'s `.bold()` rendering, `ESC[1m … ESC[0m`. -/
def boldStyled (s : List Char) : List Char := styledWrap ['1'] s

/-- `colored`'s `.dimmed()` rendering, `ESC[2m … ESC[0m`. -/
def dimStyled (s : List Char) : List Char := styledWrap ['2'] s

/-! ## Number formatting (Rust `{}` / `{:>3}` / `{:.1}` format specs) -/

/-- Decimal rendering of a natural number, as Rust `{}` formatting. -/
def natStr (n : ℕ) : List Char := Nat.toDigits 10 n

/-- Rust `{}` formatting of an `i64`. -/
def intStr (n : ℤ) : List Char :=
  if n < 0 then '-' :: natStr n.natAbs else natStr n.natAbs

/-- Left-pad with spaces to a minimum width, as Rust's right-aligned
width format spec. -/
def padLeftSpaces (w : ℕ) (s : List Char) : List Char :=
  List.replicate (w - s.length) ' ' ++ s

/-- Round half-to-even, as Rust float formatting with a precision spec
rounds the decimal expansion of the (here exact) value. -/
def roundHalfEven (q : ℚ) : ℤ :=
  if q - ⌊q⌋ < 1 / 2 then ⌊q⌋
  else if q - ⌊q⌋ > 1 / 2 then ⌊q⌋ + 1
  else if 2 ∣ ⌊q⌋ then ⌊q⌋ else ⌊q⌋ + 1

/-! ## Time and label formatting (`api.rs`, `display.rs`) -/

/-- `api.rs`, `format_reset_time`, with the ambient `Utc::now()` made an
explicit `now` parameter; out-of-range timestamps fall back to the epoch
(`unwrap_or_else`).  `num_days`/`num_hours`/`num_minutes` truncate toward
zero, and `%` is Rust's remainder. -/
def format_reset_time (timestamp now : ℤ) : List Char :=
  let ts := if timestampInRange timestamp then timestamp else 0
  let secs := ts - now
  if i64Div secs 3600 > 24 then
    let days := i64Div secs 86400
    let hours := i64Rem (i64Div secs 3600) 24
    if hours > 0 then intStr days ++ ('d' :: ' ' :: intStr hours) ++ ['h']
    else intStr days ++ ['d']
  else if i64Div secs 60 > 60 then
    let hours := i64Div secs 3600
    let minutes := i64Rem (i64Div secs 60) 60
    if minutes > 0 then intStr hours ++ ('h' :: ' ' :: intStr minutes) ++ ['m']
    else intStr hours ++ ['h']
  else intStr (i64Div secs 60) ++ ['m']

/-- `display.rs`, `format_label_minutes`. -/
def format_label_minutes (window : WindowSnapshot) : List Char :=
  let minutes := i64Div window.limit_window_seconds 60
  if minutes ≥ 60 then
    let hours := i64Div minutes 60
    let mins := i64Rem minutes 60
    if mins > 0 then intStr hours ++ ('h' :: ' ' :: intStr mins) ++ ['m']
    else intStr hours ++ ['h']
  else intStr minutes ++ ['m']

/-! ## Layout primitives (`display.rs`) -/

/-- `display.rs`, `print_rule`: a rule of one repeated glyph. -/
def print_rule (c : Char) (width : ℕ) : List Char := List.replicate width c

/-- `display.rs`, `print_line`: content padded with spaces to `width`
visible columns (`saturating_sub` is `ℕ` subtraction). -/
def print_line (line : List Char) (width : ℕ) : List Char :=
  line ++ List.replicate (width - visible_len line) ' '

/-- `display.rs`, `print_centered`. -/
def print_centered (line : List Char) (width : ℕ) : List Char :=
  let visible := visible_len line
  let padding_left := (width - visible) / 2
  let padding_right := width - visible - padding_left
  List.replicate padding_left ' ' ++ line ++ List.replicate padding_right ' '

/-! ## The window line (`display.rs`, `display_window_line`) -/

/-- Severity band of the remaining percentage (`display.rs` lines 94-100). -/
def statusColor (remaining : ℤ) : ColorName :=
  if remaining ≤ 10 then ColorName.red
  else if remaining ≤ 30 then ColorName.yellow
  else ColorName.green

/-- Clamped used percent (`display.rs` line 91). -/
def windowUsed (window : WindowSnapshot) : ℤ := i64Clamp window.used_percent 0 100

/-- Remaining percent (`display.rs` line 92). -/
def windowRemaining (window : WindowSnapshot) : ℤ :=
  i64SaturatingSub 100 (windowUsed window)

/-- The `{:>3}%` percent readout. -/
def percentStr (remaining : ℤ) : List Char :=
  padLeftSpaces 3 (intStr remaining) ++ ['%']

/-- The colored percent readout of a window line. -/
def windowPercentColored (window : WindowSnapshot) : List Char :=
  apply_color (percentStr (windowRemaining window))
    (statusColor (windowRemaining window))

/-- The dimmed `reset …` readout of a window line. -/
def windowResetColored (window : WindowSnapshot) (now : ℤ) : List Char :=
  dimStyled (("reset ").toList ++ format_reset_time window.reset_at now)

/-- The `● label` prefix of a window line (colored indicator, bold label). -/
def windowLabelPart (window : WindowSnapshot) (label : List Char) : List Char :=
  apply_color ['●'] (statusColor (windowRemaining window)) ++
    ' ' :: boldStyled label

/-- Bar column budget (`display.rs` lines 109-116): the width left over
after label, percent and reset readouts and three separator spaces, floored
at 10 columns. -/
def windowBarWidth (window : WindowSnapshot) (label : List Char) (now : ℤ)
    (width : ℕ) : ℕ :=
  max ((((((width - visible_len (windowLabelPart window label)) - 1) -
      visible_len (windowPercentColored window)) - 1) -
      visible_len (windowResetColored window now)) - 1) 10

/-- Raw fill width (`display.rs` line 118): the `f64 → usize` cast
truncates toward zero and saturates below at zero, which on the
non-negative rational model is `Int.toNat ∘ floor`. -/
def fillWidthOf (remaining : ℤ) (bar_width : ℕ) : ℕ :=
  (⌊(remaining : ℚ) / 100 * (bar_width : ℚ)⌋).toNat

/-- Capped fill (`display.rs` line 119). -/
def windowFill (window : WindowSnapshot) (label : List Char) (now : ℤ)
    (width : ℕ) : ℕ :=
  min (fillWidthOf (windowRemaining window) (windowBarWidth window label now width))
    (windowBarWidth window label now width)

/-- The colored progress bar of a window line. -/
def windowBar (window : WindowSnapshot) (label : List Char) (now : ℤ)
    (width : ℕ) : List Char :=
  apply_color (List.replicate (windowFill window label now width) '█')
      (statusColor (windowRemaining window)) ++
    apply_color
      (List.replicate
        (windowBarWidth window label now width - windowFill window label now width)
        '░')
      ColorName.white

/-- `display.rs`, `display_window_line`: the full emitted line. -/
def display_window_line (window : WindowSnapshot) (label : List Char) (now : ℤ)
    (width : ℕ) : List Char :=
  print_line
    (windowLabelPart window label ++ ' ' :: windowBar window label now width ++
      ' ' :: windowPercentColored window ++ ' ' :: windowResetColored window now)
    width

/-! ## The pace line (`pace.rs` formatting + `display.rs`, `display_pace_line`) -/

/-- Stage to color (`display.rs` lines 137-144). -/
def stageColor : Stage → ColorName
  | Stage.OnTrack => ColorName.green
  | Stage.SlightlyAhead => ColorName.cyan
  | Stage.Ahead => ColorName.cyan
  | Stage.FarAhead => ColorName.cyan
  | Stage.SlightlyBehind => ColorName.yellow
  | Stage.Behind => ColorName.red
  | Stage.FarBehind => ColorName.red

/-- `pace.rs`, `UsagePace::stage_emoji`. -/
def stage_emoji : Stage → List Char
  | Stage.OnTrack => ['✓']
  | Stage.SlightlyAhead => ['↑']
  | Stage.Ahead => ['↑', '↑']
  | Stage.FarAhead => ['↑', '↑', '↑']
  | Stage.SlightlyBehind => ['↓']
  | Stage.Behind => ['↓', '↓']
  | Stage.FarBehind => ['↓', '↓', '↓']

/-- `pace.rs`, `UsagePace::stage_description`. -/
def stage_description : Stage → List Char
  | Stage.OnTrack => ("on track").toList
  | Stage.SlightlyAhead => ("slightly ahead").toList
  | Stage.Ahead => ("ahead").toList
  | Stage.FarAhead => ("far ahead").toList
  | Stage.SlightlyBehind => ("slightly behind").toList
  | Stage.Behind => ("behind").toList
  | Stage.FarBehind => ("far behind").toList

/-- `pace.rs`, `UsagePace::format_eta`; the `eta as i64` cast truncates
toward zero and saturates at the `i64` bounds. -/
def format_eta (p : UsagePace) : List Char :=
  if p.will_last_to_reset then ("until reset").toList
  else
    match p.eta_seconds with
    | some eta =>
      let e := min (max (ratTrunc eta) i64MinVal) i64MaxVal
      if e > 86400 then
        intStr (i64Div e 86400) ++
          ('d' :: ' ' :: intStr (i64Div (i64Rem e 86400) 3600)) ++ ['h']
      else if e > 3600 then
        intStr (i64Div e 3600) ++
          ('h' :: ' ' :: intStr (i64Div (i64Rem e 3600) 60)) ++ ['m']
      else intStr (i64Div e 60) ++ ['m']
    | none => ("unknown").toList

/-- `pace.rs`, `UsagePace::format_delta`: an explicit `+` for non-negative
deltas, then `{:.1}` one-fractional-digit rendering (the exact value is
rounded half-to-even; the minus sign tracks the sign of the value). -/
def format_delta (p : UsagePace) : List Char :=
  let r := roundHalfEven (p.delta_percent * 10)
  (if p.delta_percent ≥ 0 then ['+'] else []) ++
    (if p.delta_percent < 0 then ['-'] else []) ++
    natStr (r.natAbs / 10) ++ '.' :: Nat.digitChar (r.natAbs % 10) :: ['%']

/-- Left fragment of the pace line, `Pace: <emoji> <desc> (<delta>)`. -/
def paceLinePartOne (pace : UsagePace) : List Char :=
  ("Pace: ").toList ++ stage_emoji pace.stage ++
    ' ' :: apply_color (stage_description pace.stage) (stageColor pace.stage) ++
    ' ' :: '(' :: apply_color (format_delta pace) (stageColor pace.stage) ++ [')']

/-- Right fragment of the pace line, `ETA: …`. -/
def paceLinePartTwo (pace : UsagePace) : List Char :=
  apply_color (("ETA: ").toList ++ format_eta pace) ColorName.white

/-- `display.rs`, `display_pace_line`: two-end justification of the two
fragments (`saturating_sub`/`saturating_add` are `ℕ` operations here). -/
def display_pace_line (pace : UsagePace) (width reset_label_width : ℕ) :
    List Char :=
  let visible_part1 := visible_len (paceLinePartOne pace)
  let visible_part2 := visible_len (paceLinePartTwo pace)
  let reset_start := width - reset_label_width
  let max_start := width - visible_part2
  let min_start := visible_part1 + 1
  let start := max (min reset_start max_start) (min min_start max_start)
  let padding := start - visible_part1
  print_line
    (paceLinePartOne pace ++ List.replicate padding ' ' ++ paceLinePartTwo pace)
    width

/-- `display.rs`, `reset_label_width`. -/
def reset_label_width (window : WindowSnapshot) (now : ℤ) : ℕ :=
  visible_len (("reset ").toList ++ format_reset_time window.reset_at now)

/-- Pace-line selection of `display_usage` (`display.rs` lines 52-63): a
pace is computed only when a secondary window exists — preferring the
secondary window with the weekly default of 10080 minutes and falling back
to the primary window with the 5-hour default of 300 minutes.  The two
ambient `Utc::now()` reads of the source are modelled as one instant. -/
def selectedPace (rl : RateLimitDetails) (now : ℤ) : Option UsagePace :=
  match rl.secondary_window with
  | none => none
  | some w =>
    match from_window w now 10080 with
    | some pace => some pace
    | none =>
      match rl.primary_window with
      | none => none
      | some pw => from_window pw now 300

/-! ## General lemmas about the pace projector -/

/-- Unfolding of `from_window` through the named intermediate quantities. -/
theorem from_window_eq (w : WindowSnapshot) (now d : ℤ) :
    from_window w now d =
      if ¬ timestampInRange w.reset_at then none
      else if timeUntilReset w now > durationSec w d ∨ timeUntilReset w now = 0 then none
      else if elapsedSec w now d = 0 ∧ actualUsed w > 0 then none
      else some
        { stage := stage_from_delta (actualUsed w - expectedUsed w now d)
          delta_percent := actualUsed w - expectedUsed w now d
          expected_used_percent := expectedUsed w now d
          actual_used_percent := actualUsed w
          eta_seconds :=
            (etaAndSurvival (elapsedSec w now d) (actualUsed w) (timeUntilReset w now)).1
          will_last_to_reset :=
            (etaAndSurvival (elapsedSec w now d) (actualUsed w) (timeUntilReset w now)).2 } :=
  rfl

theorem actualUsed_nonneg (w : WindowSnapshot) : 0 ≤ actualUsed w := by
  unfold actualUsed fClamp
  exact le_min (le_max_right _ _) (by norm_num)

theorem actualUsed_le_100 (w : WindowSnapshot) : actualUsed w ≤ 100 :=
  min_le_right _ _

/-- The shape of every `some` result of `from_window`. -/
theorem from_window_some (w : WindowSnapshot) (now d : ℤ) (p : UsagePace)
    (hp : from_window w now d = some p) :
    p.eta_seconds =
        (etaAndSurvival (elapsedSec w now d) (actualUsed w) (timeUntilReset w now)).1 ∧
      p.will_last_to_reset =
        (etaAndSurvival (elapsedSec w now d) (actualUsed w) (timeUntilReset w now)).2 ∧
      p.actual_used_percent = actualUsed w ∧
      p.expected_used_percent = expectedUsed w now d ∧
      p.delta_percent = actualUsed w - expectedUsed w now d ∧
      p.stage = stage_from_delta (actualUsed w - expectedUsed w now d) := by
  rw [from_window_eq] at hp
  split_ifs at hp
  cases hp
  simp

/-- Whenever the survival flag is set, no ETA is reported. -/
theorem etaAndSurvival_none_of_true (e a t : ℚ)
    (h : (etaAndSurvival e a t).2 = true) : (etaAndSurvival e a t).1 = none := by
  unfold etaAndSurvival at *
  split_ifs at *
  all_goals simp_all
  split_ifs at *
  all_goals simp_all

/-! ## Evaluation lemmas at the example inputs -/

theorem exWindow_dur (d : ℤ) : durationSec exWindow d = 1200 := by
  have h : resolvedWindowMinutes exWindow d = 20 := by
    unfold resolvedWindowMinutes
    simp only [show i64Div exWindow.limit_window_seconds 60 = 20 from by decide]
    norm_num
  rw [durationSec, h]
  norm_num

theorem exWindow_tur : timeUntilReset exWindow 0 = 600 := by
  unfold timeUntilReset exWindow
  norm_num

theorem exWindow_elapsed (d : ℤ) : elapsedSec exWindow 0 d = 600 := by
  rw [elapsedSec, exWindow_dur, exWindow_tur, fClamp]
  norm_num

theorem exWindow_expected (d : ℤ) : expectedUsed exWindow 0 d = 50 := by
  rw [expectedUsed, exWindow_elapsed, exWindow_dur, fClamp]
  norm_num

theorem exWindow_actual : actualUsed exWindow = 50 := by
  rw [actualUsed, fClamp]
  norm_num [exWindow]

theorem exWindow_eta : etaAndSurvival 600 50 600 = (none, true) := by
  rw [etaAndSurvival]
  norm_num

/-- Concrete full run of the projector on `exWindow` (the resolved duration
comes from the window itself, so the default is irrelevant). -/
theorem exWindow_from_window (d : ℤ) :
    from_window exWindow 0 d = some ⟨Stage.OnTrack, 0, 50, 50, none, true⟩ := by
  rw [from_window_eq, exWindow_tur, exWindow_dur, exWindow_elapsed, exWindow_expected,
    exWindow_actual, exWindow_eta]
  rw [if_neg, if_neg, if_neg]
  · norm_num [stage_from_delta]
  · norm_num
  · norm_num
  · simp only [not_not]
    unfold exWindow
    decide

/-! ## Claims -/

/-- C1 (counterexample): at `cexWindow` (reset timestamp one past chrono's
maximum) with `now` at chrono's maximum timestamp and the weekly default of
10080 minutes, none of the three conditions named by the claim holds, yet
`project` returns `None` (the `DateTime::from_timestamp` lookup fails). -/
theorem C1_claim_counterexample :
    from_window cexWindow 8210298412799 10080 = none ∧
    ¬ (timeUntilReset cexWindow 8210298412799 > durationSec cexWindow 10080 ∨
       timeUntilReset cexWindow 8210298412799 = 0 ∨
       (elapsedSec cexWindow 8210298412799 10080 = 0 ∧ 0 < actualUsed cexWindow)) := by
  have hdur : durationSec cexWindow 10080 = 604800 := by
    unfold durationSec resolvedWindowMinutes
    simp only [show i64Div cexWindow.limit_window_seconds 60 = 0 from by decide]
    norm_num
  have htur : timeUntilReset cexWindow 8210298412799 = 1 := by
    unfold timeUntilReset cexWindow
    norm_num
  have helapsed : elapsedSec cexWindow 8210298412799 10080 = 604799 := by
    rw [elapsedSec, hdur, htur, fClamp]
    norm_num
  refine ⟨?_, ?_⟩
  · rw [from_window_eq, if_pos]
    unfold cexWindow
    decide
  · rw [hdur, htur, helapsed]
    norm_num

/-- C1 (amended): `project` returns `None` exactly when `reset_at` falls
outside chrono's representable timestamp range, or `time_until_reset >
duration_sec`, or `time_until_reset == 0`, or `elapsed == 0` with a positive
clamped usage; on every other input it returns `Some` verdict. -/
theorem C1_amended (w : WindowSnapshot) (now d : ℤ) :
    from_window w now d = none ↔
      (¬ timestampInRange w.reset_at ∨
        timeUntilReset w now > durationSec w d ∨
        timeUntilReset w now = 0 ∨
        (elapsedSec w now d = 0 ∧ 0 < actualUsed w)) := by
  rw [from_window_eq]
  split_ifs with h1 h2 h3 <;> simp_all
  tauto

/-- C2 (confirmed): stage classification is the inclusive-lower-boundary step
function of `|delta|`, with the sign of `delta` selecting ahead/behind, and
the boundary magnitudes 2, 6, 12 mapping to the lower-magnitude stage. -/
theorem C2_stage_step_function (delta : ℚ) :
    (|delta| ≤ 2 → stage_from_delta delta = Stage.OnTrack) ∧
    (2 < |delta| → |delta| ≤ 6 → 0 ≤ delta → stage_from_delta delta = Stage.SlightlyAhead) ∧
    (2 < |delta| → |delta| ≤ 6 → delta < 0 → stage_from_delta delta = Stage.SlightlyBehind) ∧
    (6 < |delta| → |delta| ≤ 12 → 0 ≤ delta → stage_from_delta delta = Stage.Ahead) ∧
    (6 < |delta| → |delta| ≤ 12 → delta < 0 → stage_from_delta delta = Stage.Behind) ∧
    (12 < |delta| → 0 ≤ delta → stage_from_delta delta = Stage.FarAhead) ∧
    (12 < |delta| → delta < 0 → stage_from_delta delta = Stage.FarBehind) := by
  refine ⟨?_, ?_, ?_, ?_, ?_, ?_, ?_⟩ <;>
    · intros
      simp only [stage_from_delta]
      split_ifs <;> first | rfl | linarith

/-- C2 witness: boundary and interior checks, instantiating the step-function
theorem at concrete deltas. -/
theorem C2_stage_step_function_witness :
    stage_from_delta 2 = Stage.OnTrack ∧
    stage_from_delta (-2) = Stage.OnTrack ∧
    stage_from_delta 4 = Stage.SlightlyAhead ∧
    stage_from_delta 6 = Stage.SlightlyAhead ∧
    stage_from_delta (-6) = Stage.SlightlyBehind ∧
    stage_from_delta (-10) = Stage.Behind ∧
    stage_from_delta 12 = Stage.Ahead ∧
    stage_from_delta (-12) = Stage.Behind ∧
    stage_from_delta 20 = Stage.FarAhead ∧
    stage_from_delta (-20) = Stage.FarBehind :=
  ⟨(C2_stage_step_function 2).1 (by norm_num),
   (C2_stage_step_function (-2)).1 (by norm_num),
   (C2_stage_step_function 4).2.1 (by norm_num) (by norm_num) (by norm_num),
   (C2_stage_step_function 6).2.1 (by norm_num) (by norm_num) (by norm_num),
   (C2_stage_step_function (-6)).2.2.1 (by norm_num) (by norm_num) (by norm_num),
   (C2_stage_step_function (-10)).2.2.2.2.1 (by norm_num) (by norm_num) (by norm_num),
   (C2_stage_step_function 12).2.2.2.1 (by norm_num) (by norm_num) (by norm_num),
   (C2_stage_step_function (-12)).2.2.2.2.1 (by norm_num) (by norm_num) (by norm_num),
   (C2_stage_step_function 20).2.2.2.2.2.1 (by norm_num) (by norm_num),
   (C2_stage_step_function (-20)).2.2.2.2.2.2 (by norm_num) (by norm_num)⟩

theorem tdiv_sixty_pos_iff (l : ℤ) : 0 < Int.tdiv l 60 ↔ 60 ≤ l := by
  constructor
  · intro h
    by_contra hlt
    push_neg at hlt
    rcases le_or_lt 0 l with h0 | h0
    · rw [Int.tdiv_eq_ediv h0 (by norm_num), Int.ediv_eq_zero_of_lt h0 (by omega)] at h
      exact absurd h (by norm_num)
    · have hneg := Int.tdiv_nonneg (a := -l) (b := 60) (by omega) (by norm_num)
      rw [Int.neg_tdiv] at hneg
      omega
  · intro h
    rw [Int.tdiv_eq_ediv (by omega) (by norm_num)]
    have := (Int.le_ediv_iff_mul_le (a := 1) (b := l) (c := 60) (by norm_num)).mpr (by omega)
    omega

/-- C3 (confirmed): whenever `project` returns a verdict, its ETA / survival
fields satisfy the claim: with `elapsed > 0` and `actual > 0`, letting
`rate = actual / elapsed` and `candidate = (100 - actual) / rate`, the
verdict is `(eta = None, will_last_to_reset = true)` when
`candidate ≥ time_until_reset` and `(eta = Some candidate, false)`
otherwise; with `elapsed > 0` and `actual = 0` it is `(None, true)`; with
`elapsed = 0` and `actual = 0` it is `(None, false)`. -/
theorem C3_eta_and_survival (w : WindowSnapshot) (now d : ℤ) (p : UsagePace)
    (hp : from_window w now d = some p) :
    (0 < elapsedSec w now d → 0 < actualUsed w →
      ((timeUntilReset w now ≤
          (100 - actualUsed w) / (actualUsed w / elapsedSec w now d) →
            p.eta_seconds = none ∧ p.will_last_to_reset = true) ∧
        ((100 - actualUsed w) / (actualUsed w / elapsedSec w now d) <
            timeUntilReset w now →
          p.eta_seconds =
              some ((100 - actualUsed w) / (actualUsed w / elapsedSec w now d)) ∧
            p.will_last_to_reset = false))) ∧
    (0 < elapsedSec w now d → actualUsed w = 0 →
      p.eta_seconds = none ∧ p.will_last_to_reset = true) ∧
    (elapsedSec w now d = 0 → actualUsed w = 0 →
      p.eta_seconds = none ∧ p.will_last_to_reset = false) := by
  obtain ⟨h1, h2, -, -, -, -⟩ := from_window_some w now d p hp
  rw [h1, h2]
  refine ⟨?_, ?_, ?_⟩
  · intro he ha
    have hle : actualUsed w ≤ 100 := actualUsed_le_100 w
    have hmax : max (100 - actualUsed w) 0 = 100 - actualUsed w :=
      max_eq_left (by linarith)
    have hrate : 0 < actualUsed w / elapsedSec w now d := div_pos ha he
    simp only [etaAndSurvival, if_pos (And.intro he ha), if_pos hrate, hmax]
    constructor
    · intro hc
      rw [if_pos hc]
      exact ⟨rfl, rfl⟩
    · intro hc
      rw [if_neg (not_le.mpr hc)]
      exact ⟨rfl, rfl⟩
  · intro he ha
    simp only [etaAndSurvival]
    rw [if_neg (by simp [ha]), if_pos (And.intro he ha)]
    exact ⟨rfl, rfl⟩
  · intro he ha
    simp only [etaAndSurvival]
    rw [if_neg (by simp [he]), if_neg (by simp [he])]
    exact ⟨rfl, rfl⟩

/-- C4 (confirmed): no verdict ever carries `eta_seconds = Some x`
simultaneously with `will_last_to_reset = true`. -/
theorem C4_no_eta_with_survival (w : WindowSnapshot) (now d : ℤ) (p : UsagePace)
    (hp : from_window w now d = some p) :
    ¬ (p.will_last_to_reset = true ∧ ∃ x, p.eta_seconds = some x) := by
  rintro ⟨hw, x, hx⟩
  obtain ⟨h1, h2, -⟩ := from_window_some w now d p hp
  rw [h2] at hw
  rw [h1, etaAndSurvival_none_of_true _ _ _ hw] at hx
  cases hx

/-- C5 (counterexample): `limit_window_seconds = 59` is positive, yet the
projector substitutes the caller default (here 7 minutes) instead of using
`limit_window_seconds / 60 = 0`. -/
theorem C5_claim_counterexample :
    (0 : ℤ) < 59 ∧
    i64Div 59 60 = 0 ∧
    resolvedWindowMinutes ⟨0, 0, 59⟩ 7 = 7 ∧
    resolvedWindowMinutes ⟨0, 0, 59⟩ 7 ≠ i64Div 59 60 := by
  have h : resolvedWindowMinutes ⟨0, 0, 59⟩ 7 = 7 := by
    unfold resolvedWindowMinutes
    simp only [show i64Div (WindowSnapshot.mk 0 0 59).limit_window_seconds 60 = 0 from by decide]
    norm_num
  refine ⟨by norm_num, by decide, h, ?_⟩
  rw [h, show i64Div 59 60 = 0 from by decide]
  norm_num

/-- C5 (amended): the resolved duration is `limit_window_seconds / 60` minutes
exactly when that truncated quotient is positive — equivalently when
`limit_window_seconds ≥ 60` — and the caller default is substituted whenever
the quotient is non-positive (every `limit_window_seconds < 60`, including
positive sub-minute values, zero, and negatives). -/
theorem C5_amended (w : WindowSnapshot) (d : ℤ) :
    (0 < i64Div w.limit_window_seconds 60 →
      resolvedWindowMinutes w d = i64Div w.limit_window_seconds 60) ∧
    (i64Div w.limit_window_seconds 60 ≤ 0 → resolvedWindowMinutes w d = d) ∧
    (0 < i64Div w.limit_window_seconds 60 ↔ 60 ≤ w.limit_window_seconds) ∧
    durationSec w d = (resolvedWindowMinutes w d : ℚ) * 60 := by
  refine ⟨?_, ?_, tdiv_sixty_pos_iff _, rfl⟩
  · intro h
    unfold resolvedWindowMinutes
    rw [if_pos h]
  · intro h
    unfold resolvedWindowMinutes
    rw [if_neg (by omega)]

/-- C5 witness: a 2-hour window resolves to 120 minutes regardless of the
default, and a 59-second window falls back to the default. -/
theorem C5_amended_witness :
    resolvedWindowMinutes ⟨0, 0, 7200⟩ 9 = i64Div 7200 60 ∧
    resolvedWindowMinutes ⟨0, 0, 59⟩ 9 = 9 :=
  ⟨(C5_amended ⟨0, 0, 7200⟩ 9).1 (by decide),
   (C5_amended ⟨0, 0, 59⟩ 9).2.1 (by decide)⟩

/-- C3 witness: on `exWindow` the current rate exactly lasts to reset, so the
verdict reports survival and no ETA. -/
theorem C3_eta_and_survival_witness :
    (⟨Stage.OnTrack, 0, 50, 50, none, true⟩ : UsagePace).eta_seconds = none ∧
    (⟨Stage.OnTrack, 0, 50, 50, none, true⟩ : UsagePace).will_last_to_reset = true := by
  have h := C3_eta_and_survival exWindow 0 7 ⟨Stage.OnTrack, 0, 50, 50, none, true⟩
    (exWindow_from_window 7)
  refine (h.1 ?_ ?_).1 ?_
  · rw [exWindow_elapsed]
    norm_num
  · rw [exWindow_actual]
    norm_num
  · rw [exWindow_elapsed, exWindow_actual, exWindow_tur]
    norm_num

/-- C4 witness: instantiation of the no-ETA-with-survival invariant on the
concrete verdict produced from `exWindow`. -/
theorem C4_no_eta_with_survival_witness :
    ¬ ((⟨Stage.OnTrack, 0, 50, 50, none, true⟩ : UsagePace).will_last_to_reset = true ∧
       ∃ x, (⟨Stage.OnTrack, 0, 50, 50, none, true⟩ : UsagePace).eta_seconds = some x) :=
  C4_no_eta_with_survival exWindow 0 7 _ (exWindow_from_window 7)




/-! ## Lemmas about the ANSI stripper and width measurement -/

theorem runAnsi_nil (st : AnsiState) : runAnsi st [] = st := rfl

theorem runAnsi_cons (st : AnsiState) (c : Char) (rest : List Char) :
    runAnsi st (c :: rest) = runAnsi (ansiStep st c) rest := rfl

theorem runAnsi_append (st : AnsiState) (a b : List Char) :
    runAnsi st (a ++ b) = runAnsi (runAnsi st a) b := by
  unfold runAnsi
  rw [List.foldl_append]

theorem stripFrom_append (a : List Char) : ∀ (st : AnsiState) (b : List Char),
    stripFrom st (a ++ b) = stripFrom st a ++ stripFrom (runAnsi st a) b := by
  induction a with
  | nil => intro st b; rfl
  | cons c rest ih =>
    intro st b
    simp only [List.cons_append, stripFrom, runAnsi_cons]
    split_ifs <;> simp [ih]

theorem listWidth_append (a b : List Char) :
    listWidth (a ++ b) = listWidth a + listWidth b := by
  simp [listWidth]

theorem listWidth_cons (c : Char) (s : List Char) :
    listWidth (c :: s) = charWidth c + listWidth s := by
  simp [listWidth]

theorem listWidth_replicate (n : ℕ) (c : Char) :
    listWidth (List.replicate n c) = n * charWidth c := by
  simp [listWidth, List.map_replicate, List.sum_replicate, smul_eq_mul]

theorem visible_len_append (a b : List Char)
    (h : runAnsi AnsiState.ground a = AnsiState.ground) :
    visible_len (a ++ b) = visible_len a + visible_len b := by
  unfold visible_len
  rw [stripFrom_append, h, listWidth_append]

theorem plain_ansi_facts (s : List Char) (h : escChar ∉ s) :
    stripFrom AnsiState.ground s = s ∧ runAnsi AnsiState.ground s = AnsiState.ground := by
  induction s with
  | nil => exact ⟨rfl, rfl⟩
  | cons c rest ih =>
    have hc : c ≠ escChar := fun e => h (by simp [e])
    have hrest : escChar ∉ rest := fun e => h (List.mem_cons_of_mem _ e)
    have hstep : ansiStep AnsiState.ground c = AnsiState.ground := by
      unfold ansiStep
      rw [if_neg hc]
    obtain ⟨h1, h2⟩ := ih hrest
    refine ⟨?_, ?_⟩
    · simp only [stripFrom, hstep, h1]
      simp [hc]
    · rw [runAnsi_cons, hstep, h2]

theorem sgr_body_consumed : ∀ (ps : List Char), validSgrParams ps → ∀ (rest : List Char),
    stripFrom AnsiState.csi (ps ++ 'm' :: rest) = stripFrom AnsiState.ground rest ∧
    runAnsi AnsiState.csi (ps ++ 'm' :: rest) = runAnsi AnsiState.ground rest := by
  intro ps
  induction ps with
  | nil =>
    intro _ rest
    have hm : ansiStep AnsiState.csi 'm' = AnsiState.ground := by decide
    constructor
    · simp only [List.nil_append, stripFrom, hm]
      rw [if_neg]
      simp
    · simp only [List.nil_append, runAnsi_cons, hm]
  | cons p t ih =>
    intro hv rest
    have hp : 0x30 ≤ p.toNat ∧ p.toNat ≤ 0x3F := hv p (by simp)
    have hpe : p ≠ escChar := by
      intro e
      rw [e] at hp
      revert hp
      decide
    have hstep : ansiStep AnsiState.csi p = AnsiState.csi := by
      unfold ansiStep
      rw [if_neg hpe]
      simp only []
      rw [if_neg (by omega)]
    have hv' : validSgrParams t := fun c hc => hv c (by simp [hc])
    obtain ⟨ih1, ih2⟩ := ih hv' rest
    constructor
    · simp only [List.cons_append, stripFrom, hstep]
      rw [if_neg (by simp)]
      exact ih1
    · rw [List.cons_append, runAnsi_cons, hstep]
      exact ih2

theorem sgr_consumed (ps : List Char) (hps : validSgrParams ps) (st : AnsiState)
    (rest : List Char) :
    stripFrom st (sgrSeq ps ++ rest) = stripFrom AnsiState.ground rest ∧
    runAnsi st (sgrSeq ps ++ rest) = runAnsi AnsiState.ground rest := by
  have hesc : ansiStep st escChar = AnsiState.escape := by
    unfold ansiStep
    rw [if_pos rfl]
  have hbr : ansiStep AnsiState.escape '[' = AnsiState.csi := by decide
  have hstrip1 : stripFrom st (escChar :: '[' :: (ps ++ 'm' :: rest)) =
      stripFrom AnsiState.csi (ps ++ 'm' :: rest) := by
    simp only [stripFrom, hesc, hbr]
    rw [if_neg (by simp), if_neg (by decide)]
  have hrun1 : runAnsi st (escChar :: '[' :: (ps ++ 'm' :: rest)) =
      runAnsi AnsiState.csi (ps ++ 'm' :: rest) := by
    rw [runAnsi_cons, hesc, runAnsi_cons, hbr]
  obtain ⟨hb1, hb2⟩ := sgr_body_consumed ps hps rest
  have hshape : sgrSeq ps ++ rest = escChar :: '[' :: (ps ++ 'm' :: rest) := by
    simp [sgrSeq]
  rw [hshape]
  exact ⟨hstrip1.trans hb1, hrun1.trans hb2⟩

theorem styledWrap_facts (ps s : List Char) (hps : validSgrParams ps)
    (hs : escChar ∉ s) :
    visible_len (styledWrap ps s) = listWidth s ∧
      runAnsi AnsiState.ground (styledWrap ps s) = AnsiState.ground := by
  obtain ⟨hstrip, hrun⟩ := plain_ansi_facts s hs
  have hshape : styledWrap ps s = sgrSeq ps ++ (s ++ sgrSeq ['0']) := by
    simp [styledWrap]
  have hreset0 : stripFrom AnsiState.ground (sgrSeq ['0']) = [] ∧
      runAnsi AnsiState.ground (sgrSeq ['0']) = AnsiState.ground := by
    obtain ⟨u1, u2⟩ := sgr_consumed ['0'] (by decide) AnsiState.ground []
    rw [List.append_nil] at u1 u2
    exact ⟨u1, u2⟩
  obtain ⟨ho1, ho2⟩ := sgr_consumed ps hps AnsiState.ground (s ++ sgrSeq ['0'])
  constructor
  · rw [hshape, visible_len, ho1, stripFrom_append, hrun, hstrip, hreset0.1,
      List.append_nil]
  · rw [hshape, ho2, runAnsi_append, hrun, hreset0.2]

theorem apply_color_facts (s : List Char) (c : ColorName) (hs : escChar ∉ s) :
    visible_len (apply_color s c) = listWidth s ∧
      runAnsi AnsiState.ground (apply_color s c) = AnsiState.ground := by
  cases c
  case normal =>
    obtain ⟨h1, h2⟩ := plain_ansi_facts s hs
    exact ⟨by rw [apply_color, visible_len, h1], by rw [apply_color]; exact h2⟩
  all_goals exact styledWrap_facts _ s (by decide) hs

theorem space_cons_facts (x : List Char) :
    visible_len (' ' :: x) = 1 + visible_len x ∧
      runAnsi AnsiState.ground (' ' :: x) = runAnsi AnsiState.ground x := by
  have h : (' ' :: x) = [' '] ++ x := rfl
  have hb : runAnsi AnsiState.ground [' '] = AnsiState.ground :=
    (plain_ansi_facts _ (by decide)).2
  rw [h, visible_len_append _ _ hb, runAnsi_append, hb]
  constructor
  · rw [show visible_len [' '] = 1 from by decide]
  · rfl

theorem digitChar_printable_lt : ∀ m, m < 16 → printableAscii (Nat.digitChar m) := by
  decide

theorem toDigitsCore_printable : ∀ (fuel n : ℕ) (ds : List Char),
    printableStr ds → printableStr (Nat.toDigitsCore 10 fuel n ds) := by
  intro fuel
  induction fuel with
  | zero => intro n ds h; exact h
  | succ f ih =>
    intro n ds h
    rw [Nat.toDigitsCore]
    have hd : printableStr ((n % 10).digitChar :: ds) := by
      intro c hc
      rcases List.mem_cons.mp hc with hc | hc
      · rw [hc]
        exact digitChar_printable_lt _ (by omega)
      · exact h c hc
    split
    · exact hd
    · exact ih _ _ hd

theorem natStr_printable (n : ℕ) : printableStr (natStr n) :=
  toDigitsCore_printable _ _ [] (by intro c hc; cases hc)

theorem intStr_printable (n : ℤ) : printableStr (intStr n) := by
  unfold intStr
  split_ifs
  · intro c hc
    rcases List.mem_cons.mp hc with hc | hc
    · rw [hc]; decide
    · exact natStr_printable _ c hc
  · exact natStr_printable _

theorem printableStr_append (a b : List Char) (ha : printableStr a)
    (hb : printableStr b) : printableStr (a ++ b) := by
  intro c hc
  rcases List.mem_append.mp hc with hc | hc
  · exact ha c hc
  · exact hb c hc

theorem printableStr_cons (c : Char) (s : List Char) (hc : printableAscii c)
    (hs : printableStr s) : printableStr (c :: s) := by
  intro x hx
  rcases List.mem_cons.mp hx with hx | hx
  · rw [hx]; exact hc
  · exact hs x hx

theorem printable_no_esc (s : List Char) (h : printableStr s) : escChar ∉ s := by
  intro hmem
  have := h _ hmem
  revert this
  decide

theorem printable_charWidth (c : Char) (h : printableAscii c) : charWidth c = 1 := by
  obtain ⟨h1, h2⟩ := h
  unfold charWidth
  rw [if_neg (by omega), if_pos (by omega)]

theorem printable_listWidth (s : List Char) (h : printableStr s) :
    listWidth s = s.length := by
  induction s with
  | nil => rfl
  | cons c rest ih =>
    rw [listWidth_cons, printable_charWidth c (h c (by simp)),
      ih (fun x hx => h x (by simp [hx])), List.length_cons]
    omega

theorem printableStr_nil : printableStr [] := by
  intro c hc
  cases hc

theorem format_reset_time_printable (timestamp now : ℤ) :
    printableStr (format_reset_time timestamp now) := by
  simp only [format_reset_time]
  split_ifs <;>
    first
    | exact printableStr_append _ _
        (printableStr_append _ _ (intStr_printable _)
          (printableStr_cons _ _ (by decide)
            (printableStr_cons _ _ (by decide) (intStr_printable _))))
        (printableStr_cons _ _ (by decide) printableStr_nil)
    | exact printableStr_append _ _ (intStr_printable _)
        (printableStr_cons _ _ (by decide) printableStr_nil)

/-! ## Width lemmas for the layout primitives -/

theorem esc_not_mem_replicate (n : ℕ) (c : Char) (h : c ≠ escChar) :
    escChar ∉ List.replicate n c := fun hm =>
  h ((List.eq_of_mem_replicate hm).symm)

theorem spaces_facts (n : ℕ) :
    visible_len (List.replicate n ' ') = n ∧
      runAnsi AnsiState.ground (List.replicate n ' ') = AnsiState.ground := by
  have hesc : escChar ∉ List.replicate n ' ' := esc_not_mem_replicate n ' ' (by decide)
  obtain ⟨h1, h2⟩ := plain_ansi_facts _ hesc
  refine ⟨?_, h2⟩
  rw [visible_len, h1, listWidth_replicate, show charWidth ' ' = 1 from by decide]
  omega

theorem cons_balanced (c : Char) (x : List Char) (h : c ≠ escChar) :
    visible_len (c :: x) = charWidth c + visible_len x ∧
      runAnsi AnsiState.ground (c :: x) = runAnsi AnsiState.ground x := by
  have hstep : ansiStep AnsiState.ground c = AnsiState.ground := by
    unfold ansiStep
    rw [if_neg h]
  constructor
  · unfold visible_len
    simp only [stripFrom, hstep]
    rw [if_pos (And.intro trivial h), listWidth_cons]
  · rw [runAnsi_cons, hstep]

theorem print_line_visible (l : List Char) (width : ℕ)
    (h : runAnsi AnsiState.ground l = AnsiState.ground) :
    visible_len (print_line l width) = max width (visible_len l) := by
  unfold print_line
  rw [visible_len_append _ _ h, (spaces_facts _).1]
  omega

theorem print_centered_visible (l : List Char) (width : ℕ)
    (h : runAnsi AnsiState.ground l = AnsiState.ground)
    (hle : visible_len l ≤ width) :
    visible_len (print_centered l width) = width := by
  unfold print_centered
  have hsp := spaces_facts ((width - visible_len l) / 2)
  have hb : runAnsi AnsiState.ground
      (List.replicate ((width - visible_len l) / 2) ' ' ++ l) = AnsiState.ground := by
    rw [runAnsi_append, hsp.2, h]
  rw [visible_len_append _ _ hb, visible_len_append _ _ hsp.2, hsp.1,
    (spaces_facts _).1]
  omega

theorem print_rule_visible (c : Char) (width : ℕ) (h : c ≠ escChar)
    (hw : charWidth c = 1) :
    visible_len (print_rule c width) = width := by
  unfold print_rule
  obtain ⟨h1, -⟩ := plain_ansi_facts _ (esc_not_mem_replicate width c h)
  rw [visible_len, h1, listWidth_replicate, hw]
  omega

theorem windowRemaining_bounds (w : WindowSnapshot) :
    0 ≤ windowRemaining w ∧ windowRemaining w ≤ 100 := by
  unfold windowRemaining windowUsed i64SaturatingSub i64Clamp i64MinVal i64MaxVal
  simp only [min_def, max_def]
  split_ifs <;> omega

theorem percentStr_facts_nat : ∀ n : Fin 101,
    listWidth (percentStr (n.val : ℤ)) = 4 ∧ printableStr (percentStr (n.val : ℤ)) := by
  decide

theorem percentStr_facts (r : ℤ) (h0 : 0 ≤ r) (h100 : r ≤ 100) :
    listWidth (percentStr r) = 4 ∧ printableStr (percentStr r) := by
  have hcast : (((⟨r.toNat, by omega⟩ : Fin 101).val : ℤ)) = r := by
    simp only []
    omega
  have h := percentStr_facts_nat ⟨r.toNat, by omega⟩
  rwa [hcast] at h

theorem windowPercentColored_facts (w : WindowSnapshot) :
    visible_len (windowPercentColored w) = 4 ∧
      runAnsi AnsiState.ground (windowPercentColored w) = AnsiState.ground := by
  obtain ⟨hb0, hb100⟩ := windowRemaining_bounds w
  obtain ⟨hw, hp⟩ := percentStr_facts _ hb0 hb100
  obtain ⟨h1, h2⟩ := apply_color_facts (percentStr (windowRemaining w))
    (statusColor (windowRemaining w)) (printable_no_esc _ hp)
  unfold windowPercentColored
  exact ⟨by rw [h1, hw], h2⟩

theorem windowLabelPart_facts (w : WindowSnapshot) (label : List Char)
    (h : escChar ∉ label) :
    visible_len (windowLabelPart w label) = 2 + listWidth label ∧
      runAnsi AnsiState.ground (windowLabelPart w label) = AnsiState.ground := by
  unfold windowLabelPart boldStyled
  obtain ⟨hi1, hi2⟩ := apply_color_facts ['●'] (statusColor (windowRemaining w))
    (by decide)
  obtain ⟨hb1, hb2⟩ := styledWrap_facts ['1'] label (by decide) h
  obtain ⟨hs1, hs2⟩ := space_cons_facts (styledWrap ['1'] label)
  constructor
  · rw [visible_len_append _ _ hi2, hi1, hs1, hb1,
      show listWidth ['●'] = 1 from by decide]
    omega
  · rw [runAnsi_append, hi2, hs2, hb2]

theorem windowResetColored_facts (w : WindowSnapshot) (now : ℤ) :
    runAnsi AnsiState.ground (windowResetColored w now) = AnsiState.ground := by
  unfold windowResetColored dimStyled
  have hp : printableStr (("reset ").toList ++ format_reset_time w.reset_at now) :=
    printableStr_append _ _ (by decide) (format_reset_time_printable _ _)
  exact (styledWrap_facts _ _ (by decide) (printable_no_esc _ hp)).2

theorem windowBar_facts (w : WindowSnapshot) (label : List Char) (now : ℤ)
    (width : ℕ) :
    visible_len (windowBar w label now width) = windowBarWidth w label now width ∧
      runAnsi AnsiState.ground (windowBar w label now width) = AnsiState.ground := by
  unfold windowBar
  obtain ⟨hf1, hf2⟩ := apply_color_facts
    (List.replicate (windowFill w label now width) '█')
    (statusColor (windowRemaining w)) (esc_not_mem_replicate _ _ (by decide))
  obtain ⟨he1, he2⟩ := apply_color_facts
    (List.replicate (windowBarWidth w label now width - windowFill w label now width) '░')
    ColorName.white (esc_not_mem_replicate _ _ (by decide))
  have hle : windowFill w label now width ≤ windowBarWidth w label now width :=
    min_le_right _ _
  constructor
  · rw [visible_len_append _ _ hf2, hf1, he1, listWidth_replicate, listWidth_replicate,
      show charWidth '█' = 1 from by decide, show charWidth '░' = 1 from by decide]
    omega
  · rw [runAnsi_append, hf2, he2]

theorem display_window_line_visible (w : WindowSnapshot) (label : List Char)
    (now : ℤ) (width : ℕ) (h : escChar ∉ label) :
    visible_len (display_window_line w label now width) =
      max width
        (visible_len (windowLabelPart w label) + windowBarWidth w label now width +
          visible_len (windowResetColored w now) + 7) := by
  obtain ⟨hA1, hA2⟩ := windowLabelPart_facts w label h
  obtain ⟨hB1, hB2⟩ := windowBar_facts w label now width
  obtain ⟨hP1, hP2⟩ := windowPercentColored_facts w
  have hR2 := windowResetColored_facts w now
  have hsB := space_cons_facts (windowBar w label now width)
  have hsP := space_cons_facts (windowPercentColored w)
  have hsR := space_cons_facts (windowResetColored w now)
  have b1 : runAnsi AnsiState.ground
      (windowLabelPart w label ++ ' ' :: windowBar w label now width) =
      AnsiState.ground := by
    rw [runAnsi_append, hA2, hsB.2, hB2]
  have b2 : runAnsi AnsiState.ground
      (windowLabelPart w label ++ ' ' :: windowBar w label now width ++
        ' ' :: windowPercentColored w) = AnsiState.ground := by
    rw [runAnsi_append, b1, hsP.2, hP2]
  have b3 : runAnsi AnsiState.ground
      (windowLabelPart w label ++ ' ' :: windowBar w label now width ++
        ' ' :: windowPercentColored w ++ ' ' :: windowResetColored w now) =
      AnsiState.ground := by
    rw [runAnsi_append, b2, hsR.2, hR2]
  unfold display_window_line
  rw [print_line_visible _ _ b3, visible_len_append _ _ b2, visible_len_append _ _ b1,
    visible_len_append _ _ hA2, hsB.1, hsP.1, hsR.1, hB1, hP1]
  omega

/-! ## Width lemmas for the pace line -/


theorem format_delta_printable (p : UsagePace) : printableStr (format_delta p) := by
  simp only [format_delta]
  have hdig : printableAscii
      (Nat.digitChar ((roundHalfEven (p.delta_percent * 10)).natAbs % 10)) :=
    digitChar_printable_lt _ (by omega)
  refine printableStr_append _ _
    (printableStr_append _ _ (printableStr_append _ _ ?_ ?_) ?_) ?_
  · split_ifs
    · exact printableStr_cons _ _ (by decide) printableStr_nil
    · exact printableStr_nil
  · split_ifs
    · exact printableStr_cons _ _ (by decide) printableStr_nil
    · exact printableStr_nil
  · exact natStr_printable _
  · exact printableStr_cons _ _ (by decide)
      (printableStr_cons _ _ hdig (printableStr_cons _ _ (by decide) printableStr_nil))

theorem format_eta_printable (p : UsagePace) : printableStr (format_eta p) := by
  unfold format_eta
  split_ifs
  · decide
  · cases he : p.eta_seconds with
    | none => decide
    | some eta =>
      simp only []
      split_ifs <;>
        first
        | exact printableStr_append _ _
            (printableStr_append _ _ (intStr_printable _)
              (printableStr_cons _ _ (by decide)
                (printableStr_cons _ _ (by decide) (intStr_printable _))))
            (printableStr_cons _ _ (by decide) printableStr_nil)
        | exact printableStr_append _ _ (intStr_printable _)
            (printableStr_cons _ _ (by decide) printableStr_nil)

theorem stage_emoji_no_esc (st : Stage) : escChar ∉ stage_emoji st := by
  cases st <;> decide

theorem stage_description_printable (st : Stage) :
    printableStr (stage_description st) := by
  cases st <;> decide

theorem paceLinePartOne_balanced (pace : UsagePace) :
    runAnsi AnsiState.ground (paceLinePartOne pace) = AnsiState.ground := by
  unfold paceLinePartOne
  have h1 : runAnsi AnsiState.ground (("Pace: ").toList) = AnsiState.ground :=
    (plain_ansi_facts _ (by decide)).2
  have h2 : runAnsi AnsiState.ground (stage_emoji pace.stage) = AnsiState.ground :=
    (plain_ansi_facts _ (stage_emoji_no_esc _)).2
  have hdesc := apply_color_facts (stage_description pace.stage)
    (stageColor pace.stage) (printable_no_esc _ (stage_description_printable _))
  have h3 : runAnsi AnsiState.ground
      (' ' :: apply_color (stage_description pace.stage) (stageColor pace.stage)) =
      AnsiState.ground := by
    rw [(space_cons_facts _).2, hdesc.2]
  have hdelta := apply_color_facts (format_delta pace) (stageColor pace.stage)
    (printable_no_esc _ (format_delta_printable _))
  have h4 : runAnsi AnsiState.ground
      (' ' :: '(' :: apply_color (format_delta pace) (stageColor pace.stage)) =
      AnsiState.ground := by
    rw [(space_cons_facts _).2, (cons_balanced '(' _ (by decide)).2, hdelta.2]
  have h5 : runAnsi AnsiState.ground [')'] = AnsiState.ground :=
    (plain_ansi_facts _ (by decide)).2
  rw [runAnsi_append, runAnsi_append, runAnsi_append, runAnsi_append, h1, h2, h3, h4]
  exact h5

theorem paceLinePartTwo_balanced (pace : UsagePace) :
    runAnsi AnsiState.ground (paceLinePartTwo pace) = AnsiState.ground := by
  unfold paceLinePartTwo
  exact (apply_color_facts _ _ (printable_no_esc _
    (printableStr_append _ _ (by decide) (format_eta_printable _)))).2

theorem display_pace_line_fits (pace : UsagePace) (width rlw : ℕ)
    (h : visible_len (paceLinePartOne pace) + visible_len (paceLinePartTwo pace) ≤
      width) :
    visible_len (display_pace_line pace width rlw) = width := by
  have h1 := paceLinePartOne_balanced pace
  have h2 := paceLinePartTwo_balanced pace
  simp only [display_pace_line]
  have bpre : runAnsi AnsiState.ground
      (paceLinePartOne pace ++
        List.replicate
          ((min (width - rlw) (width - visible_len (paceLinePartTwo pace)) ⊔
              min (visible_len (paceLinePartOne pace) + 1)
                (width - visible_len (paceLinePartTwo pace))) -
            visible_len (paceLinePartOne pace))
          ' ') = AnsiState.ground := by
    rw [runAnsi_append, h1, (spaces_facts _).2]
  have bInner : runAnsi AnsiState.ground
      ((paceLinePartOne pace ++
        List.replicate
          ((min (width - rlw) (width - visible_len (paceLinePartTwo pace)) ⊔
              min (visible_len (paceLinePartOne pace) + 1)
                (width - visible_len (paceLinePartTwo pace))) -
            visible_len (paceLinePartOne pace))
          ' ') ++ paceLinePartTwo pace) = AnsiState.ground := by
    rw [runAnsi_append, bpre, h2]
  rw [print_line_visible _ _ bInner, visible_len_append _ _ bpre,
    visible_len_append _ _ h1, (spaces_facts _).1]
  simp only [min_def, max_def]
  split_ifs <;> omega

/-! ## Congruence under clamping, and the display-level claims -/


theorem i64Clamp_idem (x : ℤ) : i64Clamp (i64Clamp x 0 100) 0 100 = i64Clamp x 0 100 := by
  unfold i64Clamp
  simp only [min_def, max_def]
  split_ifs <;> omega

theorem fClamp_cast_clamp (x : ℤ) :
    ((i64Clamp x 0 100 : ℤ) : ℚ) = fClamp (x : ℚ) 0 100 := by
  unfold i64Clamp fClamp
  push_cast
  rfl

theorem fClamp_idem (x : ℚ) : fClamp (fClamp x 0 100) 0 100 = fClamp x 0 100 := by
  have h0 : (0 : ℚ) ≤ min (max x 0) 100 := le_min (le_max_right _ _) (by norm_num)
  unfold fClamp
  rw [max_eq_left h0, min_eq_left (min_le_right _ _)]

theorem actualUsed_clamp_inv (up r l : ℤ) :
    actualUsed ⟨i64Clamp up 0 100, r, l⟩ = actualUsed ⟨up, r, l⟩ := by
  unfold actualUsed
  show fClamp ((i64Clamp up 0 100 : ℤ) : ℚ) 0 100 = fClamp ((up : ℤ) : ℚ) 0 100
  rw [fClamp_cast_clamp, fClamp_idem]

theorem windowUsed_clamp_inv (up r l : ℤ) :
    windowUsed ⟨i64Clamp up 0 100, r, l⟩ = windowUsed ⟨up, r, l⟩ := by
  unfold windowUsed
  exact i64Clamp_idem up

theorem display_window_line_used_congr (w v : WindowSnapshot)
    (h : windowUsed w = windowUsed v) (hr : w.reset_at = v.reset_at)
    (label : List Char) (now : ℤ) (width : ℕ) :
    display_window_line w label now width = display_window_line v label now width := by
  unfold display_window_line windowBar windowFill windowBarWidth windowLabelPart
    windowPercentColored windowResetColored fillWidthOf windowRemaining
  rw [h, hr]

theorem from_window_congr (w v : WindowSnapshot) (ha : actualUsed w = actualUsed v)
    (hr : w.reset_at = v.reset_at) (hl : w.limit_window_seconds = v.limit_window_seconds)
    (now d : ℤ) : from_window w now d = from_window v now d := by
  have hdur : durationSec w d = durationSec v d := by
    unfold durationSec resolvedWindowMinutes
    rw [hl]
  have htur : timeUntilReset w now = timeUntilReset v now := by
    unfold timeUntilReset
    rw [hr]
  have hel : elapsedSec w now d = elapsedSec v now d := by
    unfold elapsedSec
    rw [hdur, htur]
  have hexp : expectedUsed w now d = expectedUsed v now d := by
    unfold expectedUsed
    rw [hel, hdur]
  rw [from_window_eq, from_window_eq, hdur, htur, hel, hexp, ha, hr]

theorem from_window_cex_none (now d : ℤ) : from_window cexWindow now d = none := by
  rw [from_window_eq, if_pos]
  unfold cexWindow
  decide



theorem windowFill_used_congr (w v : WindowSnapshot) (h : windowUsed w = windowUsed v)
    (hr : w.reset_at = v.reset_at) (label : List Char) (now : ℤ) (width : ℕ) :
    windowFill w label now width = windowFill v label now width := by
  unfold windowFill windowBarWidth windowLabelPart windowPercentColored
    windowResetColored fillWidthOf windowRemaining
  rw [h, hr]

theorem strip_width_sgr_suffix (qs : List Char) (hqs : validSgrParams qs) :
    ∀ (s : List Char) (st : AnsiState),
      listWidth (stripFrom st (s ++ sgrSeq qs)) = listWidth (stripFrom st s) := by
  intro s
  induction s with
  | nil =>
    intro st
    obtain ⟨h1, -⟩ := sgr_consumed qs hqs st []
    rw [List.append_nil] at h1
    rw [List.nil_append, h1]
    rfl
  | cons c rest ih =>
    intro st
    simp only [List.cons_append, stripFrom]
    split_ifs
    · rw [listWidth_cons, listWidth_cons]
      exact congrArg (HAdd.hAdd (charWidth c)) (ih _)
    · exact ih _

/-- C6 (confirmed): for out-of-range `used_percent` the rendered window line,
its remaining percent, its bar fill, and the pace verdict all agree with the
ones computed from the clamped value, the remaining percent is `100` minus
the clamped value and stays within `[0,100]`, and the projector's
`actual_used_percent` is the clamp of the raw input. -/
theorem C6_clamped_percentages (up r l : ℤ) (_hout : up < 0 ∨ 100 < up) :
    (∀ (label : List Char) (now : ℤ) (width : ℕ),
      display_window_line ⟨up, r, l⟩ label now width =
        display_window_line ⟨i64Clamp up 0 100, r, l⟩ label now width) ∧
    windowRemaining ⟨up, r, l⟩ = 100 - i64Clamp up 0 100 ∧
    (0 ≤ windowRemaining ⟨up, r, l⟩ ∧ windowRemaining ⟨up, r, l⟩ ≤ 100) ∧
    (∀ (label : List Char) (now : ℤ) (width : ℕ),
      windowFill ⟨up, r, l⟩ label now width =
        windowFill ⟨i64Clamp up 0 100, r, l⟩ label now width) ∧
    (∀ now d : ℤ, from_window ⟨up, r, l⟩ now d =
      from_window ⟨i64Clamp up 0 100, r, l⟩ now d) ∧
    actualUsed ⟨up, r, l⟩ = fClamp (up : ℚ) 0 100 := by
  refine ⟨?_, ?_, windowRemaining_bounds _, ?_, ?_, rfl⟩
  · intro label now width
    exact display_window_line_used_congr _ _ (windowUsed_clamp_inv up r l).symm rfl
      label now width
  · unfold windowRemaining windowUsed i64SaturatingSub i64Clamp i64MinVal i64MaxVal
    simp only [min_def, max_def]
    split_ifs <;> omega
  · intro label now width
    exact windowFill_used_congr _ _ (windowUsed_clamp_inv up r l).symm rfl
      label now width
  · intro now d
    exact from_window_congr _ _ (actualUsed_clamp_inv up r l).symm rfl rfl now d

/-- C6 witness: `used_percent = 150` renders exactly as the clamped 100. -/
theorem C6_clamped_percentages_witness :
    ((150 : ℤ) < 0 ∨ 100 < (150 : ℤ)) ∧
    windowRemaining ⟨150, 0, 0⟩ = 100 - i64Clamp 150 0 100 ∧
    from_window ⟨150, 0, 0⟩ 0 7 = from_window ⟨i64Clamp 150 0 100, 0, 0⟩ 0 7 :=
  ⟨by norm_num, (C6_clamped_percentages 150 0 0 (by norm_num)).2.1,
    (C6_clamped_percentages 150 0 0 (by norm_num)).2.2.2.2.1 0 7⟩

/-- C7 (counterexample): a window line with a 60-column label has visible
width 87, not the configured 74 — the 10-column bar floor plus the un-truncated
label overflow the budget. -/
theorem C7_claim_counterexample :
    visible_len (display_window_line ⟨50, 0, 0⟩ (List.replicate 60 'a') 0 74) = 87 ∧
    visible_len (display_window_line ⟨50, 0, 0⟩ (List.replicate 60 'a') 0 74) ≠ 74 := by
  have hesc : escChar ∉ List.replicate 60 'a' := esc_not_mem_replicate _ _ (by decide)
  have hL : visible_len (windowLabelPart ⟨50, 0, 0⟩ (List.replicate 60 'a')) = 62 := by
    rw [(windowLabelPart_facts _ _ hesc).1, listWidth_replicate,
      show charWidth 'a' = 1 from by decide]
  have hR : visible_len (windowResetColored ⟨50, 0, 0⟩ 0) = 8 := by
    unfold windowResetColored dimStyled
    have hp : printableStr (("reset ").toList ++ format_reset_time (0 : ℤ) 0) := by
      decide
    rw [(styledWrap_facts _ _ (by decide) (printable_no_esc _ hp)).1]
    decide
  have hB : windowBarWidth ⟨50, 0, 0⟩ (List.replicate 60 'a') 0 74 = 10 := by
    unfold windowBarWidth
    rw [hL, hR, (windowPercentColored_facts _).1]
    decide
  rw [display_window_line_visible _ _ _ _ hesc, hL, hR, hB]
  norm_num

/-- C7 (amended): rule lines always span the full width; centered and
left-justified lines span exactly the full width whenever their content
fits; the window line spans exactly 74 columns whenever label and reset
readout leave room for the 10-column bar floor (combined visible width at
most 57); the pace line spans exactly 74 columns whenever its two fragments
fit.  Overlong content overflows (no truncation), as the counterexample
shows. -/
theorem C7_amended_fixed_width :
    (∀ width : ℕ, visible_len (print_rule '=' width) = width ∧
      visible_len (print_rule '-' width) = width) ∧
    (∀ (l : List Char) (width : ℕ), runAnsi AnsiState.ground l = AnsiState.ground →
      visible_len l ≤ width → visible_len (print_centered l width) = width) ∧
    (∀ (l : List Char) (width : ℕ), runAnsi AnsiState.ground l = AnsiState.ground →
      visible_len l ≤ width → visible_len (print_line l width) = width) ∧
    (∀ (w : WindowSnapshot) (label : List Char) (now : ℤ), escChar ∉ label →
      visible_len (windowLabelPart w label) +
          visible_len (windowResetColored w now) ≤ 57 →
      visible_len (display_window_line w label now 74) = 74) ∧
    (∀ (pace : UsagePace) (rlw : ℕ),
      visible_len (paceLinePartOne pace) + visible_len (paceLinePartTwo pace) ≤ 74 →
      visible_len (display_pace_line pace 74 rlw) = 74) := by
  refine ⟨?_, ?_, ?_, ?_, ?_⟩
  · intro width
    exact ⟨print_rule_visible _ _ (by decide) (by decide),
      print_rule_visible _ _ (by decide) (by decide)⟩
  · intro l width hb hle
    exact print_centered_visible l width hb hle
  · intro l width hb hle
    rw [print_line_visible l width hb]
    omega
  · intro w label now hesc hfit
    rw [display_window_line_visible w label now 74 hesc]
    unfold windowBarWidth
    rw [(windowPercentColored_facts w).1]
    simp only [max_def]
    split_ifs <;> omega
  · intro pace rlw hfit
    exact display_pace_line_fits pace 74 rlw hfit

/-- C9 (confirmed): wrapping any string in an SGR style prefix and reset
suffix never changes its visible width. -/
theorem C9_styling_invariant (s ps : List Char) (hps : validSgrParams ps) :
    visible_len (styledWrap ps s) = visible_len s := by
  unfold styledWrap
  rw [List.append_assoc]
  obtain ⟨h1, -⟩ := sgr_consumed ps hps AnsiState.ground (s ++ sgrSeq ['0'])
  unfold visible_len
  rw [h1]
  exact strip_width_sgr_suffix ['0'] (by decide) s AnsiState.ground

/-- C9 witness: red-wrapping a three-character string keeps width 3. -/
theorem C9_styling_invariant_witness :
    visible_len (styledWrap ['3', '1'] (("abc").toList)) =
      visible_len (("abc").toList) :=
  C9_styling_invariant (("abc").toList) ['3', '1'] (by decide)

/-- C10 (confirmed): the bar budget is at least 10 columns, the fill is the
floored proportional width capped at the budget, and the filled and empty
segments together are exactly the budget wide. -/
theorem C10_bar_invariants (w : WindowSnapshot) (label : List Char) (now : ℤ) :
    10 ≤ windowBarWidth w label now 74 ∧
    windowFill w label now 74 =
      min ((⌊(windowRemaining w : ℚ) / 100 *
          (windowBarWidth w label now 74 : ℚ)⌋).toNat)
        (windowBarWidth w label now 74) ∧
    windowFill w label now 74 ≤ windowBarWidth w label now 74 ∧
    visible_len (apply_color (List.replicate (windowFill w label now 74) '█')
        (statusColor (windowRemaining w))) = windowFill w label now 74 ∧
    visible_len (windowBar w label now 74) = windowBarWidth w label now 74 := by
  refine ⟨?_, rfl, min_le_right _ _, ?_, (windowBar_facts w label now 74).1⟩
  · unfold windowBarWidth
    exact le_max_right _ _
  · rw [(apply_color_facts _ _ (esc_not_mem_replicate _ _ (by decide))).1,
      listWidth_replicate, show charWidth '█' = 1 from by decide]
    omega

/-- C8 (counterexample): with no secondary window at all, the pace line is
omitted even though the primary window projects. -/
theorem C8_claim_counterexample :
    selectedPace ⟨some exWindow, none⟩ 0 = none ∧
    from_window exWindow 0 300 = some ⟨Stage.OnTrack, 0, 50, 50, none, true⟩ :=
  ⟨rfl, exWindow_from_window 300⟩

/-- C8 (amended): when a secondary window exists its projection (weekly
default 10080) is preferred; when it exists but does not project, the
primary window's projection (default 300) is used; when the secondary
window is absent the pace line is omitted regardless of the primary. -/
theorem C8_amended_fallback (rl : RateLimitDetails) (now : ℤ) :
    (∀ w p, rl.secondary_window = some w → from_window w now 10080 = some p →
      selectedPace rl now = some p) ∧
    (∀ w, rl.secondary_window = some w → from_window w now 10080 = none →
      selectedPace rl now =
        rl.primary_window.bind (fun pw => from_window pw now 300)) ∧
    (rl.secondary_window = none → selectedPace rl now = none) := by
  obtain ⟨po, so⟩ := rl
  refine ⟨?_, ?_, ?_⟩
  · intro w p hs hw
    replace hs : so = some w := hs
    subst hs
    simp [selectedPace, hw]
  · intro w hs hw
    replace hs : so = some w := hs
    subst hs
    cases po <;> simp [selectedPace, hw]
  · intro hs
    replace hs : so = none := hs
    subst hs
    rfl

/-- C8 witness: preference for a projectable secondary window, and fallback
to the primary when the secondary cannot be projected. -/
theorem C8_amended_fallback_witness :
    selectedPace ⟨some exAheadWindow, some exWindow⟩ 0 =
      some ⟨Stage.OnTrack, 0, 50, 50, none, true⟩ ∧
    selectedPace ⟨some exWindow, some cexWindow⟩ 0 =
      some ⟨Stage.OnTrack, 0, 50, 50, none, true⟩ := by
  constructor
  · exact (C8_amended_fallback ⟨some exAheadWindow, some exWindow⟩ 0).1 exWindow _
      rfl (exWindow_from_window 10080)
  · have h := (C8_amended_fallback ⟨some exWindow, some cexWindow⟩ 0).2.1 cexWindow
      rfl (from_window_cex_none 0 10080)
    rw [h]
    show (some exWindow).bind (fun pw => from_window pw 0 300) = _
    simp [exWindow_from_window 300]



/-- C7 witness: a rule, a centered line, a justified line, a window line
with an empty label, and a pace line all measure exactly 74 columns. -/
theorem C7_amended_fixed_width_witness :
    visible_len (print_rule '=' 74) = 74 ∧
    visible_len (print_centered (("hello").toList) 74) = 74 ∧
    visible_len (print_line (("hello").toList) 74) = 74 ∧
    visible_len (display_window_line ⟨45, 7200, 18000⟩ [] 0 74) = 74 ∧
    visible_len (display_pace_line ⟨Stage.OnTrack, 0, 50, 50, none, true⟩ 74 8) = 74 := by
  refine ⟨(C7_amended_fixed_width.1 74).1,
    C7_amended_fixed_width.2.1 _ 74 (by decide) (by decide),
    C7_amended_fixed_width.2.2.1 _ 74 (by decide) (by decide),
    C7_amended_fixed_width.2.2.2.1 ⟨45, 7200, 18000⟩ [] 0 (by decide) (by decide),
    C7_amended_fixed_width.2.2.2.2 ⟨Stage.OnTrack, 0, 50, 50, none, true⟩ 8 ?_⟩
  have hr : roundHalfEven ((0 : ℚ) * 10) = 0 := by norm_num [roundHalfEven]
  have hd : format_delta ⟨Stage.OnTrack, 0, 50, 50, none, true⟩ =
      '+' :: ('0' :: ('.' :: ('0' :: ['%']))) := by
    simp only [format_delta,
      show (⟨Stage.OnTrack, 0, 50, 50, none, true⟩ : UsagePace).delta_percent = 0
        from rfl, hr]
    norm_num
    decide
  have hp1 : visible_len (paceLinePartOne ⟨Stage.OnTrack, 0, 50, 50, none, true⟩) = 24 := by
    unfold paceLinePartOne
    rw [hd]
    decide
  have hp2 : visible_len (paceLinePartTwo ⟨Stage.OnTrack, 0, 50, 50, none, true⟩) = 16 := by
    decide
  rw [hp1, hp2]
  norm_num

end CodexUsage
